import Mathlib

/-!
Verification development for the StreamlinedCMS client SDK.

This file gives a shallow embedding of the two stateful cores of the SDK:

* the `Auth` module (`src/auth.ts`): credential storage with expiry in
  origin-scoped key-value storage, and the popup-based login / media
  handshakes built on a cross-window call channel whose messenger filters
  incoming calls by sender origin; and

* the lazy editing module's `EditorController` (the unnamed lazy module
  source file): the editing-session state (registry of editable elements,
  per-element content snapshots, the currently edited element, the saving
  flag, the current mode), dirtiness derivation, `startEditing`,
  `stopEditing`, `signOut`, and the batched `handleSave` protocol.

JavaScript `Map`s are embedded as association lists in insertion order
(`Map.get` / `Map.set` become `alGet` / `alSet`; `Map.set` on a present key
updates in place, on an absent key appends).  `Date.now()` becomes an
explicit `now : Nat` argument.  `localStorage` slots become `Option`-valued
state threaded through the functions that read or write them.  The
concurrent parts (the batched save, the handshake) are embedded as
deterministic functions of an explicit per-request outcome assignment,
respectively as a step function over an explicit event alphabet, reflecting
the single-threaded cooperative scheduling of the host environment.
-/

/-! ## Association lists embedding JavaScript `Map<string, string>` -/

/-- Lookup in an association list, mirroring `Map.get` (first match wins;
keys are unique in every state reachable from the source, which builds these
maps with `Map.set`). -/
def alGet : List (String × String) → String → Option String
  | [], _ => none
  | (k', v) :: rest, k => if k' = k then some v else alGet rest k

/-- Update or append, mirroring `Map.set`: a present key keeps its position
and gets the new value, an absent key is appended at the end. -/
def alSet : List (String × String) → String → String → List (String × String)
  | [], k, v => [(k, v)]
  | (k', v') :: rest, k, v =>
      if k' = k then (k, v) :: rest else (k', v') :: alSet rest k v

theorem alGet_alSet_self (m : List (String × String)) (k v : String) :
    alGet (alSet m k v) k = some v := by
  induction m with
  | nil => simp [alSet, alGet]
  | cons p rest ih =>
    obtain ⟨k', v'⟩ := p
    by_cases h : k' = k
    · simp [alSet, alGet, h]
    · simp [alSet, alGet, h, ih]

theorem alGet_alSet_ne (m : List (String × String)) (k v k' : String)
    (h : k' ≠ k) : alGet (alSet m k v) k' = alGet m k' := by
  have h2 : ¬ k = k' := fun e => h e.symm
  induction m with
  | nil => simp [alSet, alGet, h2]
  | cons p rest ih =>
    obtain ⟨k0, v0⟩ := p
    by_cases h0 : k0 = k
    · subst h0
      simp [alSet, alGet, h2]
    · simp [alSet, alGet, h0, ih]

/-! ## Auth module: credential storage (`src/auth.ts`) -/

/-- Configuration handed to `new Auth(...)`: the application id and the app
URL whose origin is the only allowed sender for handshake calls. -/
structure AuthConfig where
  appId : String
  appUrl : String
deriving DecidableEq, Repr

/-- The parsed `StoredAuth` record kept under the fixed storage key
`scms_auth`: `{ key, appId, expiresAt }`. -/
structure StoredAuth where
  key : String
  appId : String
  expiresAt : Nat
deriving DecidableEq, Repr

/-- Source constant `KEY_EXPIRY_MS = 60 * 60 * 1000` (60 minutes). -/
def KEY_EXPIRY_MS : Nat := 60 * 60 * 1000

/-- Source constant `POPUP_CHECK_INTERVAL = 500` milliseconds, the period of
the popup-closed liveness poll. -/
def POPUP_CHECK_INTERVAL : Nat := 500

/-- `Auth.getStoredKey`: reads the `scms_auth` slot.  Returns the key and the
storage slot after the read.  A record whose `appId` differs from the
configured one yields `null` with the slot untouched; a record whose
`expiresAt` lies strictly in the past is cleared (`clearStoredKey`) and
yields `null`; otherwise the key is returned.  The storage slot is the
already-parsed record (the JSON-parse failure path of the source returns
`null` and is outside the claims considered here). -/
def getStoredKey (cfg : AuthConfig) (storage : Option StoredAuth) (now : Nat) :
    Option String × Option StoredAuth :=
  match storage with
  | none => (none, none)
  | some auth =>
    if auth.appId ≠ cfg.appId then (none, some auth)
    else if auth.expiresAt < now then (none, none)
    else (some auth.key, some auth)

/-- `Auth.storeKey`: writes `{ key, appId: cfg.appId, expiresAt: now +
KEY_EXPIRY_MS }` into the `scms_auth` slot. -/
def storeKey (cfg : AuthConfig) (key : String) (now : Nat) : Option StoredAuth :=
  some { key := key, appId := cfg.appId, expiresAt := now + KEY_EXPIRY_MS }

/-- `Auth.refreshKeyExpiry`: reads via `getStoredKey` (whose purge side
effect on the slot is kept) and, when a key was returned, rewrites it with
`storeKey`. -/
def refreshKeyExpiry (cfg : AuthConfig) (storage : Option StoredAuth) (now : Nat) :
    Option StoredAuth :=
  let r := getStoredKey cfg storage now
  match r.1 with
  | some key => storeKey cfg key now
  | none => r.2

/-! ## Auth module: cross-window handshakes (`src/auth.ts`) -/

/-- Characters of the authority component: everything up to the first
slash. -/
def takeUntilSlash : List Char → List Char
  | [] => []
  | c :: rest => if c = '/' then [] else c :: takeUntilSlash rest

/-- Characters of the origin: copy the scheme up to the first `://`, keep the
separator, then keep the authority up to the next slash. -/
def originChars : List Char → List Char
  | [] => []
  | ':' :: '/' :: '/' :: rest => ':' :: '/' :: '/' :: takeUntilSlash rest
  | c :: rest => c :: originChars rest

/-- Simplified `new URL(u).origin`: the scheme plus the authority component,
dropping everything from the first slash after the scheme separator.  Both
the configured allowed-origin list and the comparisons in the theorems below
go through this one function, so its parsing granularity is not load
bearing. -/
def urlOrigin (url : String) : String :=
  String.mk (originChars url.data)

/-- The `allowedOrigins` array passed to the `WindowMessenger` in both
`openLoginPopup` and `openMediaManager`: exactly the origin of the
configured app URL. -/
def allowedOrigins (cfg : AuthConfig) : List String :=
  [urlOrigin cfg.appUrl]

/-- A `MediaFile` record as delivered by the media-manager popup. -/
structure MediaFile where
  fileId : String
  filename : String
  extension : String
  contentType : String
  size : Nat
  uploadedAt : String
  uploadedBy : Option String
  publicUrl : String
deriving DecidableEq, Repr

/-- Source constant: the `timeout` option passed to `connect` for the login
popup (`300000` ms, five minutes). -/
def loginConnectTimeoutMs : Nat := 300000

/-- Source constant: the `timeout` option passed to `connect` for the media
popup (`600000` ms, ten minutes). -/
def mediaConnectTimeoutMs : Nat := 600000

/-- State of one login handshake after the popup opened and the channel was
set up: the outer promise (`none` while pending, `some none` resolved with
`null` i.e. cancelled, `some (some k)` resolved with a key), whether the
call channel is still alive (`connection.destroy()` has not run), and
whether the popup-closed poll interval is still armed. -/
structure HandshakeState where
  resolved : Option (Option String)
  connectionAlive : Bool
  pollActive : Bool
deriving DecidableEq, Repr

/-- Promise semantics: `resolve` on an already settled promise is a no-op. -/
def resolveOnce {α : Type} (r : Option α) (v : α) : Option α :=
  match r with
  | none => some v
  | some x => some x

/-- Events that can reach one login handshake: a `receiveAuthResult` call
carrying its sender origin and key, one tick of the `POPUP_CHECK_INTERVAL`
poll carrying the observed `popup.closed` flag, and the elapsing of the
configured connect timeout. -/
inductive HandshakeEvent where
  | resultArrived (origin : String) (key : String)
  | closePollTick (popupClosed : Bool)
  | deadlineElapsed
deriving DecidableEq, Repr

/-- State right after `openLoginPopup` (or `openMediaManager`) has opened the
popup, created the messenger and armed the poll. -/
def initialHandshake : HandshakeState :=
  { resolved := none, connectionAlive := true, pollActive := true }

/-- Step function of `openLoginPopup`, read off the source callbacks.  A
`receiveAuthResult` call is delivered only while the channel is alive and
only when the sender origin is in the messenger's `allowedOrigins` (the
dependency's documented filtering contract); it runs `cleanup()` and
resolves with the key.  A poll tick that observes the popup closed runs
`cleanup()` and resolves with `null`.  The source installs no handler at all
for the elapsing of the connect timeout — its only `resolve` call sites are
the two above — so `deadlineElapsed` leaves the state unchanged. -/
def loginStep (cfg : AuthConfig) (st : HandshakeState) (e : HandshakeEvent) :
    HandshakeState :=
  match e with
  | .resultArrived origin key =>
      if st.connectionAlive = true ∧ origin ∈ allowedOrigins cfg then
        { resolved := resolveOnce st.resolved (some key),
          connectionAlive := false, pollActive := false }
      else st
  | .closePollTick popupClosed =>
      if st.pollActive = true ∧ popupClosed = true then
        { resolved := resolveOnce st.resolved none,
          connectionAlive := false, pollActive := false }
      else st
  | .deadlineElapsed => st

/-- State of one media-manager handshake; the promise resolves with a
`MediaFile` on selection and with `null` on explicit cancel, popup close, or
never (see `mediaStep`). -/
structure MediaHandshakeState where
  resolved : Option (Option MediaFile)
  connectionAlive : Bool
  pollActive : Bool
deriving DecidableEq, Repr

/-- Events that can reach one media handshake: `receiveMediaSelection`,
`receiveMediaCancel` (each carrying the sender origin), a poll tick, and the
elapsing of the connect timeout. -/
inductive MediaEvent where
  | selectionArrived (origin : String) (file : MediaFile)
  | cancelArrived (origin : String)
  | closePollTick (popupClosed : Bool)
  | deadlineElapsed
deriving DecidableEq, Repr

/-- State right after `openMediaManager` set up the channel and the poll. -/
def initialMediaHandshake : MediaHandshakeState :=
  { resolved := none, connectionAlive := true, pollActive := true }

/-- Step function of `openMediaManager`, read off the source callbacks: the
two popup-invoked methods resolve with the file respectively with `null`
(cleanup is deferred one tick by `setTimeout(cleanup, 0)`, which is
unobservable here because the promise is already settled); the poll tick on
a closed popup resolves `null`; the connect timeout has no handler and no
`resolve` site, so `deadlineElapsed` leaves the state unchanged. -/
def mediaStep (cfg : AuthConfig) (st : MediaHandshakeState) (e : MediaEvent) :
    MediaHandshakeState :=
  match e with
  | .selectionArrived origin file =>
      if st.connectionAlive = true ∧ origin ∈ allowedOrigins cfg then
        { resolved := resolveOnce st.resolved (some file),
          connectionAlive := false, pollActive := false }
      else st
  | .cancelArrived origin =>
      if st.connectionAlive = true ∧ origin ∈ allowedOrigins cfg then
        { resolved := resolveOnce st.resolved none,
          connectionAlive := false, pollActive := false }
      else st
  | .closePollTick popupClosed =>
      if st.pollActive = true ∧ popupClosed = true then
        { resolved := resolveOnce st.resolved none,
          connectionAlive := false, pollActive := false }
      else st
  | .deadlineElapsed => st

/-! ## EditorController (lazy module) -/

/-- Editor mode, `"author" | "viewer"`. -/
inductive EditorMode where
  | author
  | viewer
deriving DecidableEq, Repr

/-- State of one `EditorController`: the registry `editableElements` is
embedded as `id ↦ innerHTML` (the live content of the DOM node is the only
node datum the claims touch), `originalContent` is the snapshot map,
`editingElementId`, `saving` and `currentMode` are the session fields, and
`apiKey` the held bearer credential. -/
structure ControllerState where
  editableElements : List (String × String)
  originalContent : List (String × String)
  editingElementId : Option String
  saving : Bool
  currentMode : EditorMode
  apiKey : Option String
deriving DecidableEq, Repr

/-- The body of the `getDirtyElements` loop for one registry entry:
`original !== undefined && current !== original`. -/
def isDirtyEntry (originalContent : List (String × String))
    (p : String × String) : Bool :=
  match alGet originalContent p.1 with
  | some original => p.2 != original
  | none => false

/-- `EditorController.getDirtyElements`: walks the registry in insertion
order and collects every entry whose snapshot exists and differs from the
live content.  The source accumulates with `dirty.set` on a registry whose
keys are unique, which is the same as this filter. -/
def getDirtyElements (st : ControllerState) : List (String × String) :=
  st.editableElements.filter (isDirtyEntry st.originalContent)

/-- `EditorController.stopEditing`: no-op when nothing is being edited, else
clears `editingElementId` (the DOM affordance and toolbar updates carry no
session state). -/
def stopEditing (st : ControllerState) : ControllerState :=
  match st.editingElementId with
  | none => st
  | some _ => { st with editingElementId := none }

/-- `EditorController.startEditing`: returns unchanged when the id is not in
the registry (logged, non-fatal).  Otherwise captures the current content
into the snapshot only when `originalContent` has no entry for the id yet,
and sets `editingElementId` (the class/contenteditable toggling on the DOM
nodes carries no session state). -/
def startEditing (st : ControllerState) (elementId : String) : ControllerState :=
  match alGet st.editableElements elementId with
  | none => st
  | some content =>
      let oc :=
        if (alGet st.originalContent elementId).isNone then
          alSet st.originalContent elementId content
        else st.originalContent
      { st with originalContent := oc, editingElementId := some elementId }

/-- `EditorController.signOut`: clears the stored credential and the held
`apiKey`, strips the edit affordances, and runs `stopEditing`; it never
writes `currentMode` or `saving`. -/
def signOut (st : ControllerState) : ControllerState :=
  stopEditing { st with apiKey := none }

/-- Outcome of one `fetch` PUT inside `handleSave`: a 2xx response whose
body parses, a response with `ok` false (carrying `status` and
`statusText`), or a rejection (network fault or JSON-parse failure) carrying
`reason?.message` when present. -/
inductive SaveOutcome where
  | success
  | httpError (status : Nat) (statusText : String)
  | fault (msg : Option String)
deriving DecidableEq, Repr

/-- Whether an outcome is the success case. -/
def isSuccess : SaveOutcome → Bool
  | .success => true
  | _ => false

/-- The aggregation step `result.reason?.message || "Unknown error"`: a
missing or empty message (empty strings are falsy) becomes
`"Unknown error"`. -/
def rejectionMessage (m : Option String) : String :=
  match m with
  | none => "Unknown error"
  | some s => if s = "" then "Unknown error" else s

/-- The error entry one settled request contributes: nothing on success; the
thrown `Error` message `elementId ++ ": " ++ status ++ " " ++ statusText` on
a non-ok response; the bare fault message on a rejection — all funnelled
through `rejectionMessage` exactly as the source funnels every rejection
reason through `reason?.message || "Unknown error"`. -/
def saveErrorEntry (elementId : String) : SaveOutcome → Option String
  | .success => none
  | .httpError status statusText =>
      some (rejectionMessage
        (some (elementId ++ ": " ++ toString status ++ " " ++ statusText)))
  | .fault m => some (rejectionMessage m)

/-- The snapshot updates performed inside the per-request closures: every
request that succeeded runs `originalContent.set(elementId, content)`; the
others leave the snapshot map alone. -/
def saveFold (f : String → SaveOutcome) (dirty : List (String × String))
    (oc : List (String × String)) : List (String × String) :=
  dirty.foldl
    (fun acc p =>
      match f p.1 with
      | .success => alSet acc p.1 p.2
      | _ => acc)
    oc

/-- The controller state during the in-flight phase of `handleSave`, i.e.
between `this.saving = true` and the `finally` block: only the flag has been
written. -/
def saveInFlightState (st : ControllerState) : ControllerState :=
  { st with saving := true }

/-- Result of one `handleSave` call: the final controller state, the
aggregated `errors` list in `Promise.allSettled` order (which is the
initiation order, i.e. dirty-set iteration order), and the element ids for
which a PUT was issued, in initiation order. -/
structure SaveResult where
  state : ControllerState
  errors : List String
  requests : List String
deriving DecidableEq, Repr

/-- The portion of `handleSave` from issuing the requests to the `finally`
block, starting from the in-flight state: snapshots updated inside the
succeeding closures, errors aggregated from the settled results in order,
`stopEditing` run exactly when `errors` stayed empty, and `saving` cleared
on this exit path unconditionally. -/
def handleSaveSettled (stIn : ControllerState) (dirty : List (String × String))
    (f : String → SaveOutcome) : SaveResult :=
  let errors := dirty.filterMap (fun p => saveErrorEntry p.1 (f p.1))
  let st2 := { stIn with originalContent := saveFold f dirty stIn.originalContent }
  let st3 := if errors.isEmpty then stopEditing st2 else st2
  { state := { st3 with saving := false }, errors := errors,
    requests := dirty.map Prod.fst }

/-- `EditorController.handleSave`: computes the dirty set; returns
immediately — no request, no state change — when it is empty or a save is
already in flight; otherwise sets `saving`, issues one PUT per dirty entry
concurrently, and settles as in `handleSaveSettled`.  The per-request
outcomes are the explicit argument `f`. -/
def handleSave (st : ControllerState) (f : String → SaveOutcome) : SaveResult :=
  let dirty := getDirtyElements st
  if dirty.isEmpty || st.saving then
    { state := st, errors := [], requests := [] }
  else
    handleSaveSettled (saveInFlightState st) dirty f

/-! ## Shared concrete instances for witnesses and counterexamples -/

/-- Concrete configuration used by the concrete instances below. -/
def cfg0 : AuthConfig :=
  { appId := "app-1", appUrl := "https://app.streamlinedcms.com" }

/-! ## Claims about dirtiness and snapshots -/

/-- Claim C2: an element of the registry is dirty exactly when a snapshot
exists for its id and its live content differs from the snapshot by exact
string comparison; an element with no snapshot never appears in the dirty
set. -/
theorem dirty_iff_snapshot_differs (st : ControllerState) (id content : String)
    (hmem : (id, content) ∈ st.editableElements) :
    ((id, content) ∈ getDirtyElements st ↔
      ∃ orig, alGet st.originalContent id = some orig ∧ content ≠ orig)
    ∧ (alGet st.originalContent id = none →
        ∀ c, (id, c) ∉ getDirtyElements st) := by
  constructor
  · rw [getDirtyElements, List.mem_filter]
    cases h : alGet st.originalContent id with
    | none => simp [isDirtyEntry, h, hmem]
    | some orig => simp [isDirtyEntry, h, hmem]
  · intro h c hc
    rw [getDirtyElements, List.mem_filter] at hc
    simp [isDirtyEntry, h] at hc

/-- Concrete controller state: element `a` edited away from its snapshot,
element `b` equal to its snapshot. -/
def stC2 : ControllerState :=
  { editableElements := [("a", "new"), ("b", "same")],
    originalContent := [("a", "old"), ("b", "same")],
    editingElementId := some "a", saving := false,
    currentMode := EditorMode.author, apiKey := some "K" }

theorem dirty_iff_snapshot_differs_witness :
    ("a", "new") ∈ stC2.editableElements
    ∧ (((("a", "new") ∈ getDirtyElements stC2) ↔
        ∃ orig, alGet stC2.originalContent "a" = some orig ∧ "new" ≠ orig)
      ∧ (alGet stC2.originalContent "a" = none →
          ∀ c, ("a", c) ∉ getDirtyElements stC2)) :=
  ⟨by decide, dirty_iff_snapshot_differs stC2 "a" "new" (by decide)⟩

/-- Claim C8: `startEditing` captures the live content into the snapshot only
when no snapshot exists yet for the id; whenever a snapshot already exists,
the whole snapshot map is left unchanged, so re-entries never reset it. -/
theorem startEditing_snapshot_only_first (st : ControllerState) (id : String) :
    ((alGet st.originalContent id).isSome = true →
      (startEditing st id).originalContent = st.originalContent)
    ∧ (∀ c, alGet st.editableElements id = some c →
        alGet st.originalContent id = none →
          alGet (startEditing st id).originalContent id = some c
          ∧ ∀ id2, id2 ≠ id →
              alGet (startEditing st id).originalContent id2 =
                alGet st.originalContent id2) := by
  constructor
  · intro h
    obtain ⟨s, hs⟩ := Option.isSome_iff_exists.mp h
    cases he : alGet st.editableElements id with
    | none => simp [startEditing, he]
    | some c => simp [startEditing, he, hs]
  · intro c hc hn
    refine ⟨?_, ?_⟩
    · simp [startEditing, hc, hn, alGet_alSet_self]
    · intro id2 h2
      simp [startEditing, hc, hn, alGet_alSet_ne _ _ _ _ h2]

/-- Concrete controller state with an existing snapshot for `a` that differs
from the live content (so a reset of the snapshot would be observable). -/
def stC8 : ControllerState :=
  { editableElements := [("a", "live")],
    originalContent := [("a", "snap")],
    editingElementId := none, saving := false,
    currentMode := EditorMode.author, apiKey := none }

theorem startEditing_snapshot_only_first_witness :
    (alGet stC8.originalContent "a").isSome = true
    ∧ (startEditing stC8 "a").originalContent = stC8.originalContent :=
  ⟨by decide, (startEditing_snapshot_only_first stC8 "a").1 (by decide)⟩

/-! ## Claims about sign-out -/

/-- Claim C5 (amended): sign-out clears the edited-element selection and the
held credential, but leaves `currentMode` and `saving` exactly as they were;
the source never writes those two fields on the sign-out path. -/
theorem signOut_session_state (st : ControllerState) :
    (signOut st).editingElementId = none
    ∧ (signOut st).currentMode = st.currentMode
    ∧ (signOut st).saving = st.saving
    ∧ (signOut st).apiKey = none := by
  unfold signOut stopEditing
  cases h : st.editingElementId <;> simp

/-- Concrete controller state in author mode with an element being edited. -/
def stC5 : ControllerState :=
  { editableElements := [("a", "x")], originalContent := [("a", "old")],
    editingElementId := some "a", saving := false,
    currentMode := EditorMode.author, apiKey := some "K" }

/-- Claim C5 counterexample: from author mode, the state after `signOut` is
not `{mode: viewer, editingId: null, saving: false}` — the mode is still
`author`, because `signOut` never writes `currentMode`. -/
theorem signOut_counterexample :
    ¬ ((signOut stC5).currentMode = EditorMode.viewer
        ∧ (signOut stC5).editingElementId = none
        ∧ (signOut stC5).saving = false) := by
  decide

/-! ## Claims about the credential store -/

/-- Claim C4 (amended): a read returns the stored key exactly when the
record's `appId` matches the configured one and `now ≤ expiresAt`; the slot
is purged by the read exactly when the `appId` matches and the record is
expired — a mismatched record is treated as absent but left in storage. -/
theorem getStoredKey_characterization (cfg : AuthConfig) (auth : StoredAuth)
    (now : Nat) :
    getStoredKey cfg (some auth) now =
      ((if auth.appId = cfg.appId ∧ now ≤ auth.expiresAt
          then some auth.key else none),
        (if auth.appId = cfg.appId ∧ auth.expiresAt < now
          then none else some auth)) := by
  unfold getStoredKey
  split_ifs <;> simp_all
  omega

/-- Stored record whose `appId` does not match `cfg0` and whose expiry is far
in the future. -/
def authMismatch : StoredAuth :=
  { key := "k", appId := "other-app", expiresAt := 1000 }

/-- Claim C4 counterexample: reading a mismatched credential returns no key
(treated as absent), but the read does not purge it — the slot still holds
the record afterwards, contradicting the claim that a mismatched credential
is purged from persistent storage by that read. -/
theorem getStoredKey_no_purge_counterexample :
    (getStoredKey cfg0 (some authMismatch) 0).1 = none
    ∧ (getStoredKey cfg0 (some authMismatch) 0).2 = some authMismatch := by
  decide

/-- Claim C10: every credential write goes through `storeKey`, which stamps
`expiresAt = now + KEY_EXPIRY_MS` with `KEY_EXPIRY_MS = 3600000` ms (60
minutes): this covers the initial store performed by the login handshake's
result callback and the refresh performed after a save attempt, which
rewrites the key it just read with the same stamp. -/
theorem credential_write_expiry (cfg : AuthConfig) (key : String)
    (storage : Option StoredAuth) (now : Nat) :
    storeKey cfg key now =
      some { key := key, appId := cfg.appId, expiresAt := now + 3600000 }
    ∧ KEY_EXPIRY_MS = 3600000
    ∧ (∀ k, (getStoredKey cfg storage now).1 = some k →
        refreshKeyExpiry cfg storage now =
          some { key := k, appId := cfg.appId, expiresAt := now + 3600000 }) := by
  refine ⟨rfl, rfl, ?_⟩
  intro k hk
  simp [refreshKeyExpiry, hk, storeKey, KEY_EXPIRY_MS]

theorem credential_write_expiry_witness :
    (getStoredKey cfg0 (some { key := "k", appId := "app-1", expiresAt := 50 }) 10).1
        = some "k"
    ∧ refreshKeyExpiry cfg0 (some { key := "k", appId := "app-1", expiresAt := 50 }) 10
        = some { key := "k", appId := "app-1", expiresAt := 3600010 } :=
  ⟨by decide,
    (credential_write_expiry cfg0 "k"
        (some { key := "k", appId := "app-1", expiresAt := 50 }) 10).2.2 "k"
      (by decide)⟩

/-! ## Claims about the handshakes -/

/-- Claim C3: a poll tick observing the closed popup resolves the pending
handshake with `null` (cancelled) — but the elapsing of the configured
deadline resolves nothing, for the login and the media handshake alike: the
source has no `resolve` call site tied to any timer, so the promise stays
pending when the deadline passes while the popup is open. -/
theorem handshake_deadline_divergence :
    (loginStep cfg0 initialHandshake (HandshakeEvent.closePollTick true)).resolved
        = some none
    ∧ (loginStep cfg0 initialHandshake HandshakeEvent.deadlineElapsed).resolved
        = none
    ∧ (mediaStep cfg0 initialMediaHandshake (MediaEvent.closePollTick true)).resolved
        = some none
    ∧ (mediaStep cfg0 initialMediaHandshake MediaEvent.deadlineElapsed).resolved
        = none :=
  ⟨rfl, rfl, rfl, rfl⟩

/-- Claim C9: a cross-window call whose sender origin differs from the origin
of the configured app URL is never delivered: the step relation leaves the
handshake state — including its outcome — completely unchanged, for the
login result call and for both media calls. -/
theorem cross_origin_call_rejected (cfg : AuthConfig) (st : HandshakeState)
    (stm : MediaHandshakeState) (origin key : String) (file : MediaFile)
    (h : origin ≠ urlOrigin cfg.appUrl) :
    loginStep cfg st (HandshakeEvent.resultArrived origin key) = st
    ∧ mediaStep cfg stm (MediaEvent.selectionArrived origin file) = stm
    ∧ mediaStep cfg stm (MediaEvent.cancelArrived origin) = stm := by
  have hno : origin ∉ allowedOrigins cfg := by
    simp [allowedOrigins]
    exact h
  refine ⟨?_, ?_, ?_⟩ <;> simp [loginStep, mediaStep, hno]

/-- Concrete media file record. -/
def mf0 : MediaFile :=
  { fileId := "f1", filename := "pic.png", extension := "png",
    contentType := "image/png", size := 123, uploadedAt := "2024-01-01",
    uploadedBy := none, publicUrl := "https://cdn.example/pic.png" }

theorem cross_origin_call_rejected_witness :
    "https://evil.example" ≠ urlOrigin cfg0.appUrl
    ∧ (loginStep cfg0 initialHandshake
          (HandshakeEvent.resultArrived "https://evil.example" "k")
        = initialHandshake
      ∧ mediaStep cfg0 initialMediaHandshake
          (MediaEvent.selectionArrived "https://evil.example" mf0)
        = initialMediaHandshake
      ∧ mediaStep cfg0 initialMediaHandshake
          (MediaEvent.cancelArrived "https://evil.example")
        = initialMediaHandshake) :=
  ⟨by decide,
    cross_origin_call_rejected cfg0 initialHandshake initialMediaHandshake
      "https://evil.example" "k" mf0 (by decide)⟩

/-! ## Helper lemmas for the batched save protocol -/

theorem stopEditing_editableElements (st : ControllerState) :
    (stopEditing st).editableElements = st.editableElements := by
  unfold stopEditing
  cases h : st.editingElementId <;> simp

theorem stopEditing_originalContent (st : ControllerState) :
    (stopEditing st).originalContent = st.originalContent := by
  unfold stopEditing
  cases h : st.editingElementId <;> simp

theorem stopEditing_editingElementId (st : ControllerState) :
    (stopEditing st).editingElementId = none := by
  unfold stopEditing
  cases h : st.editingElementId <;> simp [h]

/-- With unique keys, one key determines its value in the list. -/
theorem key_unique (l : List (String × String)) (k a b : String)
    (hnd : (l.map Prod.fst).Nodup) (ha : (k, a) ∈ l) (hb : (k, b) ∈ l) :
    a = b := by
  induction l with
  | nil => cases ha
  | cons p rest ih =>
    rw [List.map_cons, List.nodup_cons] at hnd
    rcases List.mem_cons.mp ha with ha1 | ha1 <;>
      rcases List.mem_cons.mp hb with hb1 | hb1
    · rw [← ha1] at hb1
      exact (Prod.mk.injEq _ _ _ _ ▸ hb1).2.symm
    · exfalso
      apply hnd.1
      rw [← ha1]
      exact List.mem_map.mpr ⟨(k, b), hb1, rfl⟩
    · exfalso
      apply hnd.1
      rw [← hb1]
      exact List.mem_map.mpr ⟨(k, a), ha1, rfl⟩
    · exact ih hnd.2 ha1 hb1

theorem saveFold_cons (f : String → SaveOutcome) (p : String × String)
    (rest : List (String × String)) (oc : List (String × String)) :
    saveFold f (p :: rest) oc =
      saveFold f rest
        (match f p.1 with
          | .success => alSet oc p.1 p.2
          | _ => oc) := rfl

/-- An id whose request did not succeed keeps its snapshot entry through the
per-request updates. -/
theorem alGet_saveFold_not_success (f : String → SaveOutcome)
    (dirty : List (String × String)) (oc : List (String × String)) (id : String)
    (h : isSuccess (f id) = false) :
    alGet (saveFold f dirty oc) id = alGet oc id := by
  induction dirty generalizing oc with
  | nil => rfl
  | cons p rest ih =>
    rw [saveFold_cons]
    cases hf : f p.1 with
    | success =>
      have hne : p.1 ≠ id := by
        intro e
        rw [← e, hf] at h
        simp [isSuccess] at h
      rw [ih (alSet oc p.1 p.2)]
      exact alGet_alSet_ne oc p.1 p.2 id (fun e => hne e.symm)
    | httpError s t => exact ih oc
    | fault m => exact ih oc

/-- An id carried by none of the processed entries keeps its snapshot entry
through the per-request updates. -/
theorem alGet_saveFold_not_key (f : String → SaveOutcome)
    (dirty : List (String × String)) (oc : List (String × String)) (id : String)
    (h : ∀ c, (id, c) ∉ dirty) :
    alGet (saveFold f dirty oc) id = alGet oc id := by
  induction dirty generalizing oc with
  | nil => rfl
  | cons p rest ih =>
    have hrest : ∀ c, (id, c) ∉ rest := by
      intro c hc
      exact h c (List.mem_cons_of_mem p hc)
    have hne : p.1 ≠ id := by
      intro e
      exact h p.2 (by rw [← e]; exact List.mem_cons_self p rest)
    rw [saveFold_cons]
    cases hf : f p.1 with
    | success =>
      rw [ih (alSet oc p.1 p.2) hrest]
      exact alGet_alSet_ne oc p.1 p.2 id (fun e => hne e.symm)
    | httpError s t => exact ih oc hrest
    | fault m => exact ih oc hrest

/-- A dirty entry whose request succeeded ends with its snapshot set to the
saved content, provided the dirty entries carry unique keys. -/
theorem alGet_saveFold_success (f : String → SaveOutcome)
    (dirty : List (String × String)) (oc : List (String × String))
    (id c : String) (hnd : (dirty.map Prod.fst).Nodup)
    (hmem : (id, c) ∈ dirty) (hf : isSuccess (f id) = true) :
    alGet (saveFold f dirty oc) id = some c := by
  induction dirty generalizing oc with
  | nil => cases hmem
  | cons p rest ih =>
    rw [List.map_cons, List.nodup_cons] at hnd
    rw [saveFold_cons]
    rcases List.mem_cons.mp hmem with h1 | h1
    · subst h1
      have hrest : ∀ c2, (id, c2) ∉ rest := by
        intro c2 hc2
        exact hnd.1 (List.mem_map.mpr ⟨(id, c2), hc2, rfl⟩)
      cases hfp : f id with
      | success =>
        rw [alGet_saveFold_not_key f rest _ id hrest]
        exact alGet_alSet_self oc id c
      | httpError s t => simp [isSuccess, hfp] at hf
      | fault m => simp [isSuccess, hfp] at hf
    · cases hfp : f p.1 with
      | success => exact ih (alSet oc p.1 p.2) hnd.2 h1
      | httpError s t => exact ih oc hnd.2 h1
      | fault m => exact ih oc hnd.2 h1

/-- Projections of the settled save result. -/
theorem handleSaveSettled_proj (stIn : ControllerState)
    (dirty : List (String × String)) (f : String → SaveOutcome) :
    (handleSaveSettled stIn dirty f).errors
        = dirty.filterMap (fun p => saveErrorEntry p.1 (f p.1))
    ∧ (handleSaveSettled stIn dirty f).requests = dirty.map Prod.fst
    ∧ (handleSaveSettled stIn dirty f).state.saving = false
    ∧ (handleSaveSettled stIn dirty f).state.originalContent
        = saveFold f dirty stIn.originalContent
    ∧ (handleSaveSettled stIn dirty f).state.editableElements
        = stIn.editableElements := by
  refine ⟨rfl, rfl, rfl, ?_, ?_⟩ <;>
    · simp only [handleSaveSettled]
      split <;> simp [stopEditing_originalContent, stopEditing_editableElements]

/-- The non-early-return branch of `handleSave`. -/
theorem handleSave_eq_settled (st : ControllerState) (f : String → SaveOutcome)
    (h1 : st.saving = false) (h2 : getDirtyElements st ≠ []) :
    handleSave st f = handleSaveSettled (saveInFlightState st) (getDirtyElements st) f := by
  unfold handleSave
  have he : (getDirtyElements st).isEmpty = false := by
    cases hd : getDirtyElements st with
    | nil => exact absurd hd h2
    | cons a l => rfl
  simp [he, h1]

/-! ## Claims about the saving flag and edit-mode exit -/

/-- Claim C6: a save invoked while one is in flight, or with an empty dirty
set, returns immediately with no request issued and no state change; on the
real save path the in-flight state has `saving = true`, the final state has
`saving = false` whatever the outcomes (including all requests failing), and
exactly one request per dirty entry is issued. -/
theorem handleSave_saving_flag (st : ControllerState) (f : String → SaveOutcome) :
    (st.saving = true →
      handleSave st f = { state := st, errors := [], requests := [] })
    ∧ (getDirtyElements st = [] →
      handleSave st f = { state := st, errors := [], requests := [] })
    ∧ (st.saving = false → getDirtyElements st ≠ [] →
        (saveInFlightState st).saving = true
        ∧ (handleSave st f).state.saving = false
        ∧ (handleSave st f).requests = (getDirtyElements st).map Prod.fst) := by
  refine ⟨?_, ?_, ?_⟩
  · intro h
    unfold handleSave
    simp [h]
  · intro h
    unfold handleSave
    simp [h]
  · intro h1 h2
    rw [handleSave_eq_settled st f h1 h2]
    exact ⟨rfl, (handleSaveSettled_proj _ _ _).2.2.1,
      (handleSaveSettled_proj _ _ _).2.1⟩

/-- Concrete controller state with two dirty elements `a` and `b`. -/
def stSave : ControllerState :=
  { editableElements := [("a", "newA"), ("b", "newB")],
    originalContent := [("a", "oldA"), ("b", "oldB")],
    editingElementId := some "a", saving := false,
    currentMode := EditorMode.author, apiKey := some "K" }

/-- Outcome assignment: the write for `a` gets a 500 response, the write for
`b` succeeds. -/
def fMixed : String → SaveOutcome := fun id =>
  if id = "a" then SaveOutcome.httpError 500 "Internal Server Error"
  else SaveOutcome.success

theorem handleSave_saving_flag_witness :
    (stSave.saving = false ∧ getDirtyElements stSave ≠ [])
    ∧ ((saveInFlightState stSave).saving = true
      ∧ (handleSave stSave fMixed).state.saving = false
      ∧ (handleSave stSave fMixed).requests
          = (getDirtyElements stSave).map Prod.fst) :=
  ⟨⟨rfl, by decide⟩, (handleSave_saving_flag stSave fMixed).2.2 rfl (by decide)⟩

/-- Claim C7: a batched save that completes with an empty error list exits
edit mode (`editingElementId` becomes `null`); with a non-empty error list
the edited-element selection is left untouched. -/
theorem handleSave_exit_editing (st : ControllerState) (f : String → SaveOutcome)
    (h1 : st.saving = false) (h2 : getDirtyElements st ≠ []) :
    ((handleSave st f).errors = [] →
      (handleSave st f).state.editingElementId = none)
    ∧ ((handleSave st f).errors ≠ [] →
      (handleSave st f).state.editingElementId = st.editingElementId) := by
  rw [handleSave_eq_settled st f h1 h2]
  simp only [handleSaveSettled]
  cases hE : (getDirtyElements st).filterMap
      (fun p => saveErrorEntry p.1 (f p.1)) with
  | nil => simp [stopEditing_editingElementId]
  | cons e es => simp [saveInFlightState]

theorem handleSave_exit_editing_witness :
    (stSave.saving = false ∧ getDirtyElements stSave ≠ [])
    ∧ (((handleSave stSave fMixed).errors = [] →
          (handleSave stSave fMixed).state.editingElementId = none)
      ∧ ((handleSave stSave fMixed).errors ≠ [] →
          (handleSave stSave fMixed).state.editingElementId
            = stSave.editingElementId)) :=
  ⟨⟨rfl, by decide⟩, handleSave_exit_editing stSave fMixed rfl (by decide)⟩

/-! ## Helper lemmas for the aggregated error report -/

theorem length_filterMap_saveErrorEntry (f : String → SaveOutcome)
    (l : List (String × String)) :
    (l.filterMap (fun p => saveErrorEntry p.1 (f p.1))).length
      = (l.filter (fun p => !isSuccess (f p.1))).length := by
  induction l with
  | nil => rfl
  | cons p rest ih =>
    rw [List.filterMap_cons, List.filter_cons]
    cases hf : f p.1 with
    | success =>
      have h1 : saveErrorEntry p.1 SaveOutcome.success = none := rfl
      have h2 : (!isSuccess SaveOutcome.success) = false := rfl
      rw [h1, h2]
      simpa using ih
    | httpError s t =>
      have h1 : saveErrorEntry p.1 (SaveOutcome.httpError s t)
          = some (rejectionMessage
              (some (p.1 ++ ": " ++ toString s ++ " " ++ t))) := rfl
      have h2 : (!isSuccess (SaveOutcome.httpError s t)) = true := rfl
      rw [h1, h2]
      simpa using ih
    | fault m =>
      have h1 : saveErrorEntry p.1 (SaveOutcome.fault m)
          = some (rejectionMessage m) := rfl
      have h2 : (!isSuccess (SaveOutcome.fault m)) = true := rfl
      rw [h1, h2]
      simpa using ih

theorem saveError_string_ne_empty (a b c : String) :
    a ++ ": " ++ b ++ " " ++ c ≠ "" := by
  intro h
  have hlen := congrArg String.length h
  simp only [String.length_append] at hlen
  have h2 : (": ").length = 2 := rfl
  have h3 : (" ").length = 1 := rfl
  have h0 : ("" : String).length = 0 := rfl
  rw [h2, h3, h0] at hlen
  omega

theorem rejectionMessage_of_ne (s : String) (h : s ≠ "") :
    rejectionMessage (some s) = s := by
  simp [rejectionMessage, h]

theorem isDirtyEntry_congr (oc1 oc2 : List (String × String))
    (p : String × String) (h : alGet oc1 p.1 = alGet oc2 p.1) :
    isDirtyEntry oc1 p = isDirtyEntry oc2 p := by
  unfold isDirtyEntry
  rw [h]

/-- The keys of the dirty set inherit uniqueness from the registry. -/
theorem dirty_keys_nodup (st : ControllerState)
    (hnd : (st.editableElements.map Prod.fst).Nodup) :
    ((getDirtyElements st).map Prod.fst).Nodup :=
  List.Nodup.sublist
    (List.Sublist.map Prod.fst (List.filter_sublist st.editableElements)) hnd

/-- Pointwise effect of the per-request snapshot updates on dirtiness: after
the updates, a registry entry is dirty exactly when it was dirty before and
its request did not succeed. -/
theorem isDirtyEntry_saveFold (st : ControllerState) (f : String → SaveOutcome)
    (hnd : (st.editableElements.map Prod.fst).Nodup) :
    ∀ p ∈ st.editableElements,
      isDirtyEntry (saveFold f (getDirtyElements st) st.originalContent) p
        = (!isSuccess (f p.1) && isDirtyEntry st.originalContent p) := by
  have hndd : ((getDirtyElements st).map Prod.fst).Nodup := dirty_keys_nodup st hnd
  rintro ⟨a, b⟩ hp
  cases hs : isSuccess (f a) with
  | false =>
    rw [isDirtyEntry_congr _ st.originalContent (a, b)
      (alGet_saveFold_not_success f _ _ a hs)]
    simp [hs]
  | true =>
    cases hd : isDirtyEntry st.originalContent (a, b) with
    | true =>
      have hm : (a, b) ∈ getDirtyElements st := List.mem_filter.mpr ⟨hp, hd⟩
      have hset := alGet_saveFold_success f (getDirtyElements st)
        st.originalContent a b hndd hm hs
      unfold isDirtyEntry
      rw [hset]
      simp
    | false =>
      have hnk : ∀ c, (a, c) ∉ getDirtyElements st := by
        intro c hc
        have hc1 := (List.mem_filter.mp hc).1
        have hcb : c = b := key_unique st.editableElements a c b hnd hc1 hp
        subst hcb
        have h2 := (List.mem_filter.mp hc).2
        simp [hd] at h2
      rw [isDirtyEntry_congr _ st.originalContent (a, b)
        (alGet_saveFold_not_key f _ _ a hnk)]
      simp [hd]

/-! ## Claim about the batched save report -/

/-- Claim C1 (amended): over the dirty set, the settled save updates exactly
the succeeding ids' snapshots to the saved content, leaves the failing ids'
snapshots untouched, leaves exactly the failing entries dirty, and reports
exactly one error entry per failing request; an entry for a non-2xx response
is the string `id ++ ": " ++ status ++ " " ++ statusText`, while an entry
for a wire/transport fault is the bare fault message (or `"Unknown error"`
when the fault carries none), without the id. -/
theorem handleSave_batch_report (st : ControllerState) (f : String → SaveOutcome)
    (hnd : (st.editableElements.map Prod.fst).Nodup) (hs : st.saving = false) :
    (handleSave st f).errors.length
        = ((getDirtyElements st).filter (fun p => !isSuccess (f p.1))).length
    ∧ (∀ p ∈ getDirtyElements st, isSuccess (f p.1) = true →
        alGet (handleSave st f).state.originalContent p.1 = some p.2)
    ∧ (∀ p ∈ getDirtyElements st, isSuccess (f p.1) = false →
        alGet (handleSave st f).state.originalContent p.1
          = alGet st.originalContent p.1)
    ∧ getDirtyElements (handleSave st f).state
        = (getDirtyElements st).filter (fun p => !isSuccess (f p.1))
    ∧ (∀ p ∈ getDirtyElements st, ∀ s t, f p.1 = SaveOutcome.httpError s t →
        (p.1 ++ ": " ++ toString s ++ " " ++ t) ∈ (handleSave st f).errors)
    ∧ (∀ p ∈ getDirtyElements st, ∀ m, f p.1 = SaveOutcome.fault m →
        rejectionMessage m ∈ (handleSave st f).errors) := by
  by_cases hd : getDirtyElements st = []
  · have hhs : handleSave st f = { state := st, errors := [], requests := [] } := by
      unfold handleSave
      simp [hd]
    rw [hhs]
    simp [hd]
  · rw [handleSave_eq_settled st f hs hd]
    obtain ⟨hE, hR, hSv, hOC, hEE⟩ :=
      handleSaveSettled_proj (saveInFlightState st) (getDirtyElements st) f
    have hndd : ((getDirtyElements st).map Prod.fst).Nodup :=
      dirty_keys_nodup st hnd
    refine ⟨?_, ?_, ?_, ?_, ?_, ?_⟩
    · rw [hE, length_filterMap_saveErrorEntry]
    · intro p hp hsp
      rw [hOC]
      exact alGet_saveFold_success f _ _ p.1 p.2 hndd hp hsp
    · intro p hp hsp
      rw [hOC]
      exact alGet_saveFold_not_success f _ _ p.1 hsp
    · calc
        getDirtyElements
            (handleSaveSettled (saveInFlightState st) (getDirtyElements st) f).state
            = (handleSaveSettled (saveInFlightState st)
                  (getDirtyElements st) f).state.editableElements.filter
                (isDirtyEntry (handleSaveSettled (saveInFlightState st)
                  (getDirtyElements st) f).state.originalContent) := rfl
        _ = st.editableElements.filter
              (isDirtyEntry
                (saveFold f (getDirtyElements st) st.originalContent)) := by
              rw [hEE, hOC]
              rfl
        _ = st.editableElements.filter
              (fun p => !isSuccess (f p.1) && isDirtyEntry st.originalContent p) :=
              List.filter_congr (isDirtyEntry_saveFold st f hnd)
        _ = (st.editableElements.filter
              (isDirtyEntry st.originalContent)).filter
              (fun p => !isSuccess (f p.1)) := (List.filter_filter _ _).symm
        _ = (getDirtyElements st).filter (fun p => !isSuccess (f p.1)) := rfl
    · intro p hp s t hf
      rw [hE]
      apply List.mem_filterMap.mpr
      refine ⟨p, hp, ?_⟩
      rw [hf]
      simp only [saveErrorEntry]
      rw [rejectionMessage_of_ne _
        (saveError_string_ne_empty p.1 (toString s) t)]
    · intro p hp m hf
      rw [hE]
      apply List.mem_filterMap.mpr
      exact ⟨p, hp, by rw [hf]; rfl⟩

/-- Concrete controller state with one dirty element `a`. -/
def stFault : ControllerState :=
  { editableElements := [("a", "new")], originalContent := [("a", "old")],
    editingElementId := some "a", saving := false,
    currentMode := EditorMode.author, apiKey := some "K" }

/-- Outcome assignment: the single write rejects with a transport fault whose
message is `network down`. -/
def fFault : String → SaveOutcome := fun _ =>
  SaveOutcome.fault (some "network down")

/-- Claim C1 counterexample: one dirty element `a` whose write suffers a
transport fault yields the single error entry `network down` — the bare
fault message — and not the entry `a: network down` that the claimed
`id ++ colon ++ message` form would require. -/
theorem handleSave_fault_entry_counterexample :
    (handleSave stFault fFault).errors = ["network down"]
    ∧ (handleSave stFault fFault).errors ≠ ["a: network down"] := by
  decide

theorem handleSave_batch_report_witness :
    ((stSave.editableElements.map Prod.fst).Nodup ∧ stSave.saving = false)
    ∧ ((handleSave stSave fMixed).errors.length
          = ((getDirtyElements stSave).filter
              (fun p => !isSuccess (fMixed p.1))).length
      ∧ (∀ p ∈ getDirtyElements stSave, isSuccess (fMixed p.1) = true →
          alGet (handleSave stSave fMixed).state.originalContent p.1 = some p.2)
      ∧ (∀ p ∈ getDirtyElements stSave, isSuccess (fMixed p.1) = false →
          alGet (handleSave stSave fMixed).state.originalContent p.1
            = alGet stSave.originalContent p.1)
      ∧ getDirtyElements (handleSave stSave fMixed).state
          = (getDirtyElements stSave).filter (fun p => !isSuccess (fMixed p.1))
      ∧ (∀ p ∈ getDirtyElements stSave, ∀ s t,
          fMixed p.1 = SaveOutcome.httpError s t →
            (p.1 ++ ": " ++ toString s ++ " " ++ t)
              ∈ (handleSave stSave fMixed).errors)
      ∧ (∀ p ∈ getDirtyElements stSave, ∀ m,
          fMixed p.1 = SaveOutcome.fault m →
            rejectionMessage m ∈ (handleSave stSave fMixed).errors)) :=
  ⟨⟨by decide, rfl⟩, handleSave_batch_report stSave fMixed (by decide) rfl⟩
